import Mathlib

/-!
Shallow embedding of `swinir_easy_runner.py`, a single-file orchestration
script that sets up directories, downloads three SwinIR weight files over
HTTP, discovers test images by extension, runs an external denoising
program as a subprocess once per noise level, renames its output
directory, and optionally emits an ensemble helper script.

The embedding makes the script's effects explicit:
  * the file system is a finite map, `List (String × Nat)` (path to byte
    size) for plain files and `List (String × List String)` (directory
    path to contained file names) for result directories;
  * the network is an oracle `String → NetResult` giving, per URL, either
    the full body (as a list of chunk sizes), an interruption after some
    chunks were already written, or an HTTP/connection error raised
    before the output file was opened;
  * the external program is an oracle `List String → SubprocBehavior`
    keyed by the exact command line `subprocess.run` receives: either
    exit code 0 together with the contents the program left in its
    conventional output directory (`none` when it created no directory),
    or a nonzero exit carrying the captured stderr text;
  * console input is modelled by the values the script derives from it
    (the stripped menu choice, the parsed custom levels, the y/N
    answers); blocking prompts themselves have no state effect.
-/

/-! ### String primitives, modelled on the character list so that they
evaluate by kernel reduction -/

/-- Python's `str.endswith` / the suffix match performed by a `*[ext]` glob. -/
def strEndsWith (s ext : String) : Bool :=
  ext.data.isSuffixOf s.data

/-- Python's `str.upper` over the extension allow-list. -/
def strToUpper (s : String) : String :=
  String.mk (s.data.map Char.toUpper)

/-- Python's `str.lower` (used on y/N answers and on captured stderr). -/
def strToLower (s : String) : String :=
  String.mk (s.data.map Char.toLower)

/-- Split a character list at a separator character (semantics of
`str.split(sep)` for a one-character separator). -/
def splitOnChar (sep : Char) : List Char → List (List Char)
  | [] => [[]]
  | c :: cs =>
    match splitOnChar sep cs with
    | [] => if c == sep then [[], []] else [[c]]
    | h :: t => if c == sep then [] :: h :: t else (c :: h) :: t

/-! ### setup_directories (lines 14-24) -/

/-- The fixed directory list created by `setup_directories`. -/
def dirs_list : List String :=
  ["model_zoo/swinir", "testsets/project_images", "results"]

/-- All prefixes of a `/`-separated path, shortest first: the chain of
directories `Path.mkdir(parents=True)` guarantees to exist afterwards. -/
def ancestors (p : String) : List String :=
  let parts := (splitOnChar '/' p.data).map String.mk
  (List.range parts.length).map (fun i => String.intercalate "/" (parts.take (i + 1)))

/-- One `mkdir` call on a directory set: creates the directory if absent,
no error if present (`exist_ok=True`). -/
def addDir (fs : List String) (d : String) : List String :=
  if d ∈ fs then fs else fs ++ [d]

/-- Semantics of `Path(dir_path).mkdir(parents=True, exist_ok=True)`: create the
directory and every missing ancestor. -/
def mkdirParents (fs : List String) (p : String) : List String :=
  (ancestors p).foldl addDir fs

/-- Model of `setup_directories`: ensure the three fixed relative directories
exist.  Total function: no failure is possible on existing directories. -/
def setup_directories (fs : List String) : List String :=
  dirs_list.foldl mkdirParents fs

/-! ### prepare_test_images (lines 61-87) -/

/-- The fixed extension allow-list of `prepare_test_images`. -/
def image_extensions : List String := [".jpg", ".jpeg", ".png", ".bmp", ".tiff"]

/-- Semantics of `test_dir.glob` for a `*[ext]` pattern over a flat directory listing: the files
whose name ends with the extension. -/
def globFiles (files : List String) (ext : String) : List String :=
  files.filter (fun f => strEndsWith f ext)

/-- The `images` list built by `prepare_test_images`: for each allow-listed
extension, the matches of the lower-case pattern then of the upper-case
pattern, concatenated in order. -/
def find_images (files : List String) : List String :=
  image_extensions.foldl
    (fun acc ext => acc ++ globFiles files ext ++ globFiles files (strToUpper ext)) []

/-- Model of `prepare_test_images`: reports the count and first names, but returns
only `len(images) > 0` to the caller. -/
def prepare_test_images (files : List String) : Bool :=
  decide (0 < (find_images files).length)

/-! ### download_models (lines 26-59) -/

/-- The fixed `models` dict, in insertion order (Python 3.7+ dicts iterate
in insertion order). -/
def models : List (String × String) :=
  [("noise15", "005_colorDN_DFWB_s128w8_SwinIR-M_noise15.pth"),
   ("noise25", "005_colorDN_DFWB_s128w8_SwinIR-M_noise25.pth"),
   ("noise50", "005_colorDN_DFWB_s128w8_SwinIR-M_noise50.pth")]

def base_url : String := "https://github.com/JingyunLiang/SwinIR/releases/download/v0.0/"

/-- Line 37: the expected on-disk path of a weight file. -/
def model_path (filename : String) : String := "model_zoo/swinir/" ++ filename

/-- Outcome of one `requests.get(url, stream=True)` followed by the chunked
write loop, as seen by `download_models`:
  * `ok chunks`: status OK, full body streamed as chunks of the given sizes;
  * `interrupted written`: the response was OK and the output file was
    opened, but an exception was raised mid-stream after the given chunks
    had already been written — the partial file stays on disk;
  * `httpError`: `requests.get` or `raise_for_status` raised before the
    output file was opened, so nothing was written. -/
inductive NetResult where
  | ok (chunks : List Nat)
  | interrupted (written : List Nat)
  | httpError
deriving DecidableEq

def NetResult.isOk : NetResult → Bool
  | .ok _ => true
  | _ => false

def NetResult.isErr : NetResult → Bool
  | .ok _ => false
  | _ => true

/-- Total byte count of a chunk list. -/
def chunkTotal (chunks : List Nat) : Nat := chunks.foldl (· + ·) 0

/-- Plain-file state threaded through `download_models`: the files on disk
(path to byte size) and the URLs requested so far, in order. -/
structure DLState where
  files : List (String × Nat)
  requests : List String
deriving DecidableEq

/-- Semantics of `os.path.exists` on the plain-file map. -/
def fileExists (files : List (String × Nat)) (p : String) : Bool :=
  files.any (fun f => f.1 == p)

/-- Opening the path for binary write plus the write loop: creates or truncates-and-
replaces the file at `p`, leaving it with `sz` bytes. -/
def writeFile (files : List (String × Nat)) (p : String) (sz : Nat) :
    List (String × Nat) :=
  (p, sz) :: files.filter (fun f => !(f.1 == p))

/-- Byte size of the file at `p`, when present. -/
def fileSize (files : List (String × Nat)) (p : String) : Option Nat :=
  (files.find? (fun f => f.1 == p)).map (fun f => f.2)

/-- The `for name, filename in models.items()` loop of `download_models`:
skip files already on disk without any request; otherwise request the URL
and either stream the body to disk and continue, or (on any exception)
print and `return False`, abandoning the remaining entries.  An
interruption after the file was opened leaves the partial write on disk. -/
def download_models_go (net : String → NetResult) :
    List (String × String) → DLState → DLState × Bool
  | [], s => (s, true)
  | (_, filename) :: rest, s =>
    if fileExists s.files (model_path filename) then
      download_models_go net rest s
    else
      match net (base_url ++ filename) with
      | .ok chunks =>
        download_models_go net rest
          { files := writeFile s.files (model_path filename) (chunkTotal chunks),
            requests := s.requests ++ [base_url ++ filename] }
      | .interrupted written =>
        ({ files := writeFile s.files (model_path filename) (chunkTotal written),
           requests := s.requests ++ [base_url ++ filename] }, false)
      | .httpError => ({ s with requests := s.requests ++ [base_url ++ filename] }, false)

/-- Model of `download_models`: run the loop over the three fixed models starting
from the given on-disk files, with no request issued yet. -/
def download_models (net : String → NetResult) (files : List (String × Nat)) :
    DLState × Bool :=
  download_models_go net models { files := files, requests := [] }

/-! ### run_denoising (lines 89-135) -/

/-- The command line built for one noise level (lines 97-107):
`--tile 400 --tile_overlap 32` is appended exactly when `use_tile`. -/
def build_cmd (noise : Nat) (use_tile : Bool) : List String :=
  let cmd := ["python", "main_test_swinir.py",
    "--task", "color_dn",
    "--noise", toString noise,
    "--model_path",
      "model_zoo/swinir/005_colorDN_DFWB_s128w8_SwinIR-M_noise" ++ toString noise ++ ".pth",
    "--folder_gt", "testsets/project_images"]
  if use_tile then cmd ++ ["--tile", "400", "--tile_overlap", "32"] else cmd

/-- What `subprocess.run(cmd, capture_output=True, text=True, check=True)`
does for a given command line:
  * `success out`: exit code 0; `out = some c` means the external program
    left its conventional output directory holding exactly the files `c`,
    `out = none` means it created no output directory;
  * `failure stderrText`: nonzero exit, `CalledProcessError` raised with
    the captured stderr. -/
inductive SubprocBehavior where
  | success (out : Option (List String))
  | failure (stderrText : String)
deriving DecidableEq

def SubprocBehavior.isSuccess : SubprocBehavior → Bool
  | .success _ => true
  | .failure _ => false

/-- Hypothesis shape "every subprocess success also produced the expected
output directory". -/
def SubprocBehavior.succCreates : SubprocBehavior → Bool
  | .success out => out.isSome
  | .failure _ => true

/-- Line 114: the external program's
conventional output directory. -/
def old_dir (noise : Nat) : String := "results/swinir_color_dn_noise" ++ toString noise

/-- Line 115: the project-specific result directory name. -/
def new_dir (noise : Nat) : String := "results/project_denoised_noise" ++ toString noise

/-- Semantics of `os.path.exists` on the directory map. -/
def dirExists (ds : List (String × List String)) (p : String) : Bool :=
  ds.any (fun e => e.1 == p)

/-- Contents of the directory at `p`, when present. -/
def getDir (ds : List (String × List String)) (p : String) : Option (List String) :=
  (ds.find? (fun e => e.1 == p)).map (fun e => e.2)

/-- Semantics of `shutil.rmtree` on the directory map. -/
def removeDir (ds : List (String × List String)) (p : String) :
    List (String × List String) :=
  ds.filter (fun e => !(e.1 == p))

/-- Create/replace the directory at `p` with contents `c`. -/
def setDir (ds : List (String × List String)) (p : String) (c : List String) :
    List (String × List String) :=
  (p, c) :: removeDir ds p

/-- Line 123: Python dict assignment, keeping
first-insertion key order. -/
def dictInsert (d : List (Nat × String)) (k : Nat) (v : String) :
    List (Nat × String) :=
  if d.any (fun e => e.1 == k) then
    d.map (fun e => if e.1 == k then (k, v) else e)
  else d ++ [(k, v)]

/-- Python's `sub in s` substring test, used by the tile-mode heuristic. -/
def containsSub (s sub : String) : Bool :=
  (List.range (s.data.length + 1)).any (fun i => sub.data.isPrefixOf (s.data.drop i))

/-- State threaded through the `for noise in noise_levels` loop:
the result directories on disk, the `results_summary` dict, the noise
levels for which the tile-mode advisory was printed, and the
`(noise, stderr)` pairs whose error text was printed. -/
structure RunState where
  dirs : List (String × List String)
  summary : List (Nat × String)
  advisories : List Nat
  loggedErrors : List (Nat × String)
deriving DecidableEq

/-- Effect of the external program's run on the directory map: when it
created its conventional output directory, that directory now holds the
written files; otherwise nothing changed. -/
def externalEffect (out : Option (List String)) (noise : Nat)
    (ds : List (String × List String)) : List (String × List String) :=
  match out with
  | some c => setDir ds (old_dir noise) c
  | none => ds

/-- Lines 118-119: remove the destination directory when it exists. -/
def rmtreeIfExists (ds : List (String × List String)) (p : String) :
    List (String × List String) :=
  if dirExists ds p then removeDir ds p else ds

/-- Semantics of `shutil.move` when the destination is absent:
the source directory is renamed onto the destination. -/
def moveDir (ds : List (String × List String)) (src dst : String) :
    List (String × List String) :=
  setDir (removeDir ds src) dst ((getDir ds src).getD [])

/-- One iteration of the `run_denoising` loop (lines 93-133). On success
the external program's effect on `old_dir` is applied, then the rename
block runs: if `old_dir` exists, any prior `new_dir` is `rmtree`d,
`old_dir` is moved onto `new_dir`, and the summary entry is recorded;
otherwise only a warning is printed.  On `CalledProcessError` the stderr
is printed (logged), and if it contains "out of memory" or "cuda"
(lower-cased) the tile advisory is printed; nothing else changes and the
loop continues with the next level. -/
def run_one (proc : List String → SubprocBehavior) (use_tile : Bool)
    (s : RunState) (noise : Nat) : RunState :=
  match proc (build_cmd noise use_tile) with
  | .success out =>
    if dirExists (externalEffect out noise s.dirs) (old_dir noise) then
      { s with
        dirs := moveDir (rmtreeIfExists (externalEffect out noise s.dirs) (new_dir noise))
            (old_dir noise) (new_dir noise),
        summary := dictInsert s.summary noise (new_dir noise) }
    else
      { s with dirs := externalEffect out noise s.dirs }
  | .failure stderrText =>
    if containsSub (strToLower stderrText) "out of memory" ||
        containsSub (strToLower stderrText) "cuda" then
      { s with loggedErrors := s.loggedErrors ++ [(noise, stderrText)],
               advisories := s.advisories ++ [noise] }
    else
      { s with loggedErrors := s.loggedErrors ++ [(noise, stderrText)] }

/-- Exit statuses agree pointwise: same constructor, and on success the
same external-program effect; stderr texts are unconstrained. -/
def sameStatus : SubprocBehavior → SubprocBehavior → Prop
  | .success a, .success b => a = b
  | .failure _, .failure _ => True
  | _, _ => False

/-- Model of `run_denoising` starting from the given result
directories, with an empty `results_summary`. -/
def run_denoising (proc : List String → SubprocBehavior) (use_tile : Bool)
    (noise_levels : List Nat) (dirs : List (String × List String)) : RunState :=
  noise_levels.foldl (run_one proc use_tile) ⟨dirs, [], [], []⟩

/-- The noise levels whose subprocess invocation exits with code zero. -/
def successLevels (proc : List String → SubprocBehavior) (use_tile : Bool)
    (noise_levels : List Nat) : List Nat :=
  noise_levels.filter (fun n => (proc (build_cmd n use_tile)).isSuccess)

/-! ### main (lines 214-274) -/

/-- The noise-level menu of `main` (lines 241-251): the stripped choice
string selects a preset, `"3"` uses the custom list the user typed (already
parsed), anything else falls back to the default `[25]`. -/
def chooseNoiseLevels (choice : String) (custom : List Nat) : List Nat :=
  if choice == "1" then [25]
  else if choice == "2" then [15, 25, 50]
  else if choice == "3" then custom
  else [25]

/-- Everything `main` reads from its environment: the weight files on
disk, the network, the test-image folder listing, the console answers
(as the values the script derives from them), the external program, and
the result directories on disk. -/
structure MainInput where
  files0 : List (String × Nat)
  net : String → NetResult
  testImages : List String
  choice : String
  custom : List Nat
  tileAnswer : String
  ensembleAnswer : String
  proc : List String → SubprocBehavior
  resultDirs : List (String × List String)

/-- Observable outcome of `main`: the two early returns, or completion
(the final success message is printed) carrying the result summary,
whether the ensemble prompt was shown (`len(results) > 1`), and whether
`create_ensemble.py` was written. -/
inductive MainOutcome where
  | downloadFailed
  | noImages
  | completed (summary : List (Nat × String)) (prompted : Bool) (ensembleWritten : Bool)
deriving DecidableEq

def MainOutcome.wasPrompted : MainOutcome → Bool
  | .completed _ p _ => p
  | _ => false

def MainOutcome.wroteEnsemble : MainOutcome → Bool
  | .completed _ _ w => w
  | _ => false

def MainOutcome.resultCount : MainOutcome → Nat
  | .completed s _ _ => s.length
  | _ => 0

/-- Model of `main` (lines 214-274): directory setup (total, modelled by
`setup_directories` separately since nothing downstream reads it), then
download with early return on failure, then image discovery with early
return when nothing was found, then the denoising loop, the purely
presentational comparison, and the guarded ensemble prompt; the final
success message is printed whenever this returns `completed`. -/
def mainProc (inp : MainInput) : MainOutcome :=
  if !(download_models inp.net inp.files0).2 then .downloadFailed
  else if !prepare_test_images inp.testImages then .noImages
  else
    let noise_levels := chooseNoiseLevels inp.choice inp.custom
    let use_tile := strToLower inp.tileAnswer == "y"
    let r := run_denoising inp.proc use_tile noise_levels inp.resultDirs
    let prompted := decide (1 < r.summary.length)
    .completed r.summary prompted (prompted && (strToLower inp.ensembleAnswer == "y"))

/-! ### Concrete scenarios used in closed instances -/

def f15 : String := "005_colorDN_DFWB_s128w8_SwinIR-M_noise15.pth"
def f25 : String := "005_colorDN_DFWB_s128w8_SwinIR-M_noise25.pth"
def f50 : String := "005_colorDN_DFWB_s128w8_SwinIR-M_noise50.pth"

/-- A network on which every request raises before the file is opened. -/
def netDown : String → NetResult := fun _ => NetResult.httpError

/-- A network on which every request is interrupted after one 8192-byte
chunk was already written. -/
def netFlaky : String → NetResult := fun _ => NetResult.interrupted [8192]

/-- All three weight files already on disk. -/
def allWeights : List (String × Nat) :=
  [(model_path f15, 4096), (model_path f25, 4096), (model_path f50, 4096)]

/-- External program that succeeds at the plain noise-15 command (writing
one output file) and fails with a CUDA out-of-memory text elsewhere. -/
def procMixed : List String → SubprocBehavior := fun c =>
  if c == build_cmd 15 false then SubprocBehavior.success (some ["img_SwinIR.png"])
  else SubprocBehavior.failure "RuntimeError: CUDA out of memory"

/-- Same exit statuses as `procMixed`, different stderr text. -/
def procMixed2 : List String → SubprocBehavior := fun c =>
  if c == build_cmd 15 false then SubprocBehavior.success (some ["img_SwinIR.png"])
  else SubprocBehavior.failure "some other error"

/-- External program that exits 0 but never creates an output directory. -/
def procNoDir : List String → SubprocBehavior := fun _ => SubprocBehavior.success none

/-- External program that always exits nonzero. -/
def procFail : List String → SubprocBehavior := fun _ => SubprocBehavior.failure "boom"

/-- External program that always succeeds, writing `fresh.png`. -/
def procFresh : List String → SubprocBehavior := fun _ =>
  SubprocBehavior.success (some ["fresh.png"])

/-- Driver scenario: empty model directory, dead network. -/
def inpDown : MainInput :=
  { files0 := [], net := netDown, testImages := ["a.png"], choice := "1",
    custom := [], tileAnswer := "n", ensembleAnswer := "n", proc := procFail,
    resultDirs := [] }

/-- Driver scenario: weights on disk, images present, every subprocess
invocation failing. -/
def inpAllFail : MainInput :=
  { files0 := allWeights, net := netDown, testImages := ["a.png", "b.png"],
    choice := "2", custom := [], tileAnswer := "n", ensembleAnswer := "y",
    proc := procFail, resultDirs := [] }

/-- Driver scenario: exactly one of the requested levels succeeds. -/
def inpOne : MainInput :=
  { files0 := allWeights, net := netDown, testImages := ["a.png"], choice := "2",
    custom := [], tileAnswer := "n", ensembleAnswer := "y", proc := procMixed,
    resultDirs := [] }

/-! ### Helper lemmas for directory setup -/

theorem mem_addDir_self (fs : List String) (d : String) : d ∈ addDir fs d := by
  unfold addDir
  split
  · assumption
  · exact List.mem_append_right _ (List.mem_singleton.mpr rfl)

theorem mem_addDir_mono {fs : List String} {a : String} (d : String)
    (h : a ∈ fs) : a ∈ addDir fs d := by
  unfold addDir
  split
  · exact h
  · exact List.mem_append_left _ h

theorem addDir_of_mem {fs : List String} {d : String} (h : d ∈ fs) :
    addDir fs d = fs := by
  unfold addDir
  exact if_pos h

theorem mem_foldl_addDir_mono {a : String} :
    ∀ (l : List String) (fs : List String), a ∈ fs → a ∈ l.foldl addDir fs
  | [], _, h => h
  | d :: l, fs, h => mem_foldl_addDir_mono l (addDir fs d) (mem_addDir_mono d h)

theorem mem_foldl_addDir_of_mem {a : String} :
    ∀ (l : List String) (fs : List String), a ∈ l → a ∈ l.foldl addDir fs
  | d :: l, fs, h => by
    rcases List.mem_cons.mp h with h | h
    · subst h
      exact mem_foldl_addDir_mono l _ (mem_addDir_self fs a)
    · exact mem_foldl_addDir_of_mem l (addDir fs d) h

theorem foldl_addDir_of_all_mem :
    ∀ (l : List String) (fs : List String), (∀ a ∈ l, a ∈ fs) → l.foldl addDir fs = fs
  | [], _, _ => rfl
  | d :: l, fs, h => by
    have hd : addDir fs d = fs := addDir_of_mem (h d (List.mem_cons_self d l))
    rw [List.foldl_cons, hd]
    exact foldl_addDir_of_all_mem l fs (fun a ha => h a (List.mem_cons_of_mem d ha))

theorem mem_mkdirParents_mono {fs : List String} {a : String} (p : String)
    (h : a ∈ fs) : a ∈ mkdirParents fs p :=
  mem_foldl_addDir_mono (ancestors p) fs h

theorem mem_mkdirParents_of_ancestor {a p : String} (fs : List String)
    (h : a ∈ ancestors p) : a ∈ mkdirParents fs p :=
  mem_foldl_addDir_of_mem (ancestors p) fs h

theorem mkdirParents_of_all_mem {fs : List String} {p : String}
    (h : ∀ a ∈ ancestors p, a ∈ fs) : mkdirParents fs p = fs :=
  foldl_addDir_of_all_mem (ancestors p) fs h

/-- C9 / idempotence, membership facts about `setup_directories` on an
arbitrary starting state. -/
theorem setup_directories_mem (fs : List String) :
    (∀ a ∈ ancestors "model_zoo/swinir", a ∈ setup_directories fs) ∧
    (∀ a ∈ ancestors "testsets/project_images", a ∈ setup_directories fs) ∧
    (∀ a ∈ ancestors "results", a ∈ setup_directories fs) := by
  unfold setup_directories dirs_list
  simp only [List.foldl_cons, List.foldl_nil]
  refine ⟨?_, ?_, ?_⟩
  · intro a ha
    exact mem_mkdirParents_mono _ (mem_mkdirParents_mono _
      (mem_mkdirParents_of_ancestor fs ha))
  · intro a ha
    exact mem_mkdirParents_mono _ (mem_mkdirParents_of_ancestor _ ha)
  · intro a ha
    exact mem_mkdirParents_of_ancestor _ ha

/-- C9: `setup_directories` is idempotent and leaves the fixed directory
set (with all parents) on disk; the model is a total function, so no
failure on existing directories is possible. -/
theorem C9_setup_directories_idempotent (fs : List String) :
    setup_directories (setup_directories fs) = setup_directories fs ∧
    "model_zoo" ∈ setup_directories fs ∧
    "model_zoo/swinir" ∈ setup_directories fs ∧
    "testsets" ∈ setup_directories fs ∧
    "testsets/project_images" ∈ setup_directories fs ∧
    "results" ∈ setup_directories fs := by
  obtain ⟨h1, h2, h3⟩ := setup_directories_mem fs
  constructor
  · show dirs_list.foldl mkdirParents (setup_directories fs) = setup_directories fs
    unfold dirs_list
    simp only [List.foldl_cons, List.foldl_nil]
    rw [mkdirParents_of_all_mem h1, mkdirParents_of_all_mem h2,
      mkdirParents_of_all_mem h3]
  · refine ⟨?_, ?_, ?_, ?_, ?_⟩
    · exact h1 "model_zoo" (by decide)
    · exact h1 "model_zoo/swinir" (by decide)
    · exact h2 "testsets" (by decide)
    · exact h2 "testsets/project_images" (by decide)
    · exact h3 "results" (by decide)

/-- C2: on a folder holding exactly `a.jpg`, `b.PNG`, `c.txt`, `d.bmp`,
discovery finds exactly three images (the `.txt` file is excluded, the
upper-case `.PNG` is matched), and the caller receives only the boolean
"at least one image found", never the list itself. -/
theorem C2_extension_filter :
    (find_images ["a.jpg", "b.PNG", "c.txt", "d.bmp"]).length = 3 ∧
    prepare_test_images ["a.jpg", "b.PNG", "c.txt", "d.bmp"] = true ∧
    ∀ files : List String,
      prepare_test_images files = decide (0 < (find_images files).length) := by
  refine ⟨by decide, by decide, fun files => rfl⟩

/-! ### Helper lemmas for the download loop -/

theorem fileExists_writeFile_mono {files : List (String × Nat)} {q : String}
    (h : fileExists files q = true) (p : String) (sz : Nat) :
    fileExists (writeFile files p sz) q = true := by
  rcases List.any_eq_true.mp h with ⟨e, he, hq⟩
  rw [beq_iff_eq] at hq
  apply List.any_eq_true.mpr
  by_cases hpq : e.1 = p
  · refine ⟨(p, sz), List.mem_cons_self _ _, ?_⟩
    have : p = q := hpq ▸ hq
    simp [this]
  · refine ⟨e, List.mem_cons_of_mem _ (List.mem_filter.mpr ⟨he, by simp [hpq]⟩), by simp [hq]⟩

theorem fileExists_writeFile_ne {q p : String} (hqp : q ≠ p)
    (fs : List (String × Nat)) (sz : Nat) :
    fileExists (writeFile fs p sz) q = fileExists fs q := by
  have h1 : fileExists (writeFile fs p sz) q = true ↔ fileExists fs q = true := by
    unfold fileExists writeFile
    simp only [List.any_eq_true, List.mem_cons, List.mem_filter]
    constructor
    · rintro ⟨e, he | ⟨he, _⟩, hq⟩
      · rw [beq_iff_eq] at hq
        subst he
        exact absurd hq.symm hqp
      · exact ⟨e, he, hq⟩
    · rintro ⟨e, he, hq⟩
      have he1 : e.1 = q := beq_iff_eq.mp hq
      exact ⟨e, Or.inr ⟨he, by simp [he1, hqp]⟩, hq⟩
  cases hb : fileExists fs q with
  | true => exact h1.mpr hb
  | false =>
    cases hl : fileExists (writeFile fs p sz) q with
    | false => rfl
    | true => rw [hb] at h1; exact absurd (h1.mp hl) (by simp)

/-- Core skip property: while the target weight file is on disk (and its
URL has not been requested), the rest of the download loop never requests
its URL, whatever the other entries do. -/
theorem no_request_of_exists (net : String → NetResult) (fn : String) :
    ∀ (l : List (String × String)) (s : DLState),
      fileExists s.files (model_path fn) = true →
      (base_url ++ fn) ∉ s.requests →
      (∀ p ∈ l, p.2 ≠ fn → base_url ++ p.2 ≠ base_url ++ fn) →
      (base_url ++ fn) ∉ (download_models_go net l s).1.requests
  | [], _, _, hni, _ => by
    rw [download_models_go]
    exact hni
  | (nm, f') :: l, s, hex, hni, hdist => by
    rw [download_models_go]
    by_cases hE : fileExists s.files (model_path f') = true
    · rw [if_pos hE]
      exact no_request_of_exists net fn l s hex hni
        (fun p hp => hdist p (List.mem_cons_of_mem _ hp))
    · rw [if_neg hE]
      have hfn : f' ≠ fn := by
        intro h
        rw [h] at hE
        exact hE hex
      have hu : base_url ++ f' ≠ base_url ++ fn :=
        hdist (nm, f') (List.mem_cons_self _ _) hfn
      have hni' : (base_url ++ fn) ∉ s.requests ++ [base_url ++ f'] := by
        intro h
        rcases List.mem_append.mp h with h | h
        · exact hni h
        · exact hu (List.mem_singleton.mp h).symm
      cases hnet : net (base_url ++ f') with
      | ok chunks =>
        simp only [hnet]
        exact no_request_of_exists net fn l _
          (fileExists_writeFile_mono hex _ _) hni'
          (fun p hp => hdist p (List.mem_cons_of_mem _ hp))
      | interrupted written => simp only [hnet]; exact hni'
      | httpError => simp only [hnet]; exact hni'

/-- C4: when a weight file already exists at its expected path, no network
request is ever issued for it by the whole download pass, and the loop
step for that entry is exactly "continue with the next entry"; existence
on disk is the only condition consulted. -/
theorem C4_download_skip (net : String → NetResult) (files : List (String × Nat))
    (nm fn : String) (l2 : List (String × String)) (s : DLState)
    (hmem : (nm, fn) ∈ models)
    (hex : fileExists files (model_path fn) = true)
    (hexs : fileExists s.files (model_path fn) = true) :
    (base_url ++ fn) ∉ (download_models net files).1.requests ∧
    download_models_go net ((nm, fn) :: l2) s = download_models_go net l2 s := by
  constructor
  · apply no_request_of_exists net fn models { files := files, requests := [] } hex
        (List.not_mem_nil _)
    have : fn = "005_colorDN_DFWB_s128w8_SwinIR-M_noise15.pth" ∨
        fn = "005_colorDN_DFWB_s128w8_SwinIR-M_noise25.pth" ∨
        fn = "005_colorDN_DFWB_s128w8_SwinIR-M_noise50.pth" := by
      simp [models] at hmem
      rcases hmem with ⟨_, h⟩ | ⟨_, h⟩ | ⟨_, h⟩ <;> simp [h]
    rcases this with h | h | h <;> subst h <;> decide
  · rw [download_models_go, if_pos hexs]

theorem fileSize_writeFile_self (fs : List (String × Nat)) (p : String) (sz : Nat) :
    fileSize (writeFile fs p sz) p = some sz := by
  simp [fileSize, writeFile, List.find?_cons_of_pos]

theorem fileExists_of_fileSize {fs : List (String × Nat)} {p : String} {sz : Nat}
    (h : fileSize fs p = some sz) : fileExists fs p = true := by
  unfold fileSize at h
  rcases Option.map_eq_some'.mp h with ⟨e, he, _⟩
  have hpe := List.find?_some he
  exact List.any_eq_true.mpr ⟨e, List.mem_of_find?_eq_some he, hpe⟩

theorem models_path_pairwise :
    models.Pairwise (fun a b => model_path a.2 ≠ model_path b.2) := by
  decide

theorem models_url_pairwise :
    models.Pairwise (fun a b => base_url ++ a.2 ≠ base_url ++ b.2) := by
  decide

theorem url_dist_of_mem {nm fn : String} (hmem : (nm, fn) ∈ models) :
    ∀ p ∈ models, p.2 ≠ fn → base_url ++ p.2 ≠ base_url ++ fn := by
  have hfn : fn = "005_colorDN_DFWB_s128w8_SwinIR-M_noise15.pth" ∨
      fn = "005_colorDN_DFWB_s128w8_SwinIR-M_noise25.pth" ∨
      fn = "005_colorDN_DFWB_s128w8_SwinIR-M_noise50.pth" := by
    simp [models] at hmem
    rcases hmem with ⟨_, h⟩ | ⟨_, h⟩ | ⟨_, h⟩ <;> simp [h]
  rcases hfn with h | h | h <;> subst h <;> decide

/-- The download loop, run up to and including the first entry whose file
is absent and whose request errors: it returns `false`, issues no request
beyond that entry, and (when the error was a mid-stream interruption)
leaves the partial write on disk at the expected model path. -/
theorem go_err_run (net : String → NetResult) (fn nm : String)
    (l2 : List (String × String)) :
    ∀ (l1 : List (String × String)) (s : DLState),
      (∀ p ∈ l1, fileExists s.files (model_path p.2) = true ∨
        (net (base_url ++ p.2)).isOk = true) →
      fileExists s.files (model_path fn) = false →
      (∀ p ∈ l1, model_path p.2 ≠ model_path fn) →
      (net (base_url ++ fn)).isErr = true →
      (download_models_go net (l1 ++ (nm, fn) :: l2) s).2 = false ∧
      (∀ u ∈ (download_models_go net (l1 ++ (nm, fn) :: l2) s).1.requests,
        u ∈ s.requests ∨ (∃ p ∈ l1, u = base_url ++ p.2) ∨ u = base_url ++ fn) ∧
      (∀ w, net (base_url ++ fn) = NetResult.interrupted w →
        fileSize (download_models_go net (l1 ++ (nm, fn) :: l2) s).1.files
          (model_path fn) = some (chunkTotal w))
  | [], s, _, hnf, _, herr => by
    rw [List.nil_append, download_models_go, if_neg (by simp [hnf])]
    cases hn : net (base_url ++ fn) with
    | ok chunks => rw [hn] at herr; simp [NetResult.isErr] at herr
    | interrupted written =>
      refine ⟨rfl, ?_, ?_⟩
      · intro u hu
        rcases List.mem_append.mp hu with h | h
        · exact Or.inl h
        · exact Or.inr (Or.inr (List.mem_singleton.mp h))
      · intro w hw
        cases hw
        exact fileSize_writeFile_self _ _ _
    | httpError =>
      refine ⟨rfl, ?_, ?_⟩
      · intro u hu
        rcases List.mem_append.mp hu with h | h
        · exact Or.inl h
        · exact Or.inr (Or.inr (List.mem_singleton.mp h))
      · intro w hw
        simp at hw
  | (nm', f') :: l1, s, hprev, hnf, hpaths, herr => by
    rw [List.cons_append, download_models_go]
    by_cases hE : fileExists s.files (model_path f') = true
    · rw [if_pos hE]
      have ih := go_err_run net fn nm l2 l1 s
        (fun p hp => hprev p (List.mem_cons_of_mem _ hp)) hnf
        (fun p hp => hpaths p (List.mem_cons_of_mem _ hp)) herr
      refine ⟨ih.1, ?_, ih.2.2⟩
      intro u hu
      rcases ih.2.1 u hu with h | ⟨p, hp, h⟩ | h
      · exact Or.inl h
      · exact Or.inr (Or.inl ⟨p, List.mem_cons_of_mem _ hp, h⟩)
      · exact Or.inr (Or.inr h)
    · rw [if_neg hE]
      rcases hprev (nm', f') (List.mem_cons_self _ _) with h | h
      · exact absurd h hE
      · cases hn : net (base_url ++ f') with
        | interrupted written => rw [hn] at h; simp [NetResult.isOk] at h
        | httpError => rw [hn] at h; simp [NetResult.isOk] at h
        | ok chunks =>
          simp only [hn]
          have hne : model_path f' ≠ model_path fn :=
            hpaths (nm', f') (List.mem_cons_self _ _)
          have ih := go_err_run net fn nm l2 l1
            { files := writeFile s.files (model_path f') (chunkTotal chunks),
              requests := s.requests ++ [base_url ++ f'] }
            (fun p hp => by
              rcases hprev p (List.mem_cons_of_mem _ hp) with hx | hx
              · exact Or.inl (fileExists_writeFile_mono hx _ _)
              · exact Or.inr hx)
            (by rw [fileExists_writeFile_ne (Ne.symm hne)]; exact hnf)
            (fun p hp => hpaths p (List.mem_cons_of_mem _ hp)) herr
          refine ⟨ih.1, ?_, ih.2.2⟩
          intro u hu
          rcases ih.2.1 u hu with hx | ⟨p, hp, hx⟩ | hx
          · rcases List.mem_append.mp hx with hx | hx
            · exact Or.inl hx
            · exact Or.inr (Or.inl ⟨(nm', f'), List.mem_cons_self _ _,
                List.mem_singleton.mp hx⟩)
          · exact Or.inr (Or.inl ⟨p, List.mem_cons_of_mem _ hp, hx⟩)
          · exact Or.inr (Or.inr hx)

/-- C5: a network or HTTP error while downloading one of the three fixed
weight files makes `download_models` abandon the remaining entries (no
request is issued for any of them) and return `False`, and `main` then
returns early, treating the failed download as fatal for the run. -/
theorem C5_download_error_fatal (net : String → NetResult)
    (files0 : List (String × Nat)) (l1 l2 : List (String × String))
    (nm fn : String) (inp : MainInput)
    (hsplit : models = l1 ++ (nm, fn) :: l2)
    (hprev : ∀ p ∈ l1, fileExists files0 (model_path p.2) = true ∨
      (net (base_url ++ p.2)).isOk = true)
    (hnf : fileExists files0 (model_path fn) = false)
    (herr : (net (base_url ++ fn)).isErr = true)
    (hnet : inp.net = net) (hfiles : inp.files0 = files0) :
    (download_models net files0).2 = false ∧
    (∀ p ∈ l2, (base_url ++ p.2) ∉ (download_models net files0).1.requests) ∧
    mainProc inp = MainOutcome.downloadFailed := by
  have hpw := models_path_pairwise
  have huw := models_url_pairwise
  rw [hsplit] at hpw huw
  have hpw' := (List.pairwise_append.mp hpw).2.2
  have huwmid := (List.pairwise_append.mp huw).2.1
  have huw' := (List.pairwise_append.mp huw).2.2
  have hpaths : ∀ p ∈ l1, model_path p.2 ≠ model_path fn := fun p hp =>
    hpw' p hp (nm, fn) (List.mem_cons_self _ _)
  have hrun := go_err_run net fn nm l2 l1 ⟨files0, []⟩ hprev hnf hpaths herr
  have hdm : download_models net files0
      = download_models_go net (l1 ++ (nm, fn) :: l2) ⟨files0, []⟩ := by
    rw [download_models, hsplit]
  refine ⟨by rw [hdm]; exact hrun.1, ?_, ?_⟩
  · intro p hp hmem
    rw [hdm] at hmem
    rcases hrun.2.1 _ hmem with h | ⟨q, hq, h⟩ | h
    · simp at h
    · exact huw' q hq p (List.mem_cons_of_mem _ hp) h.symm
    · exact (List.pairwise_cons.mp huwmid).1 p hp h.symm
  · have h1 : (download_models inp.net inp.files0).2 = false := by
      rw [hnet, hfiles, hdm]
      exact hrun.1
    simp [mainProc, h1]

theorem C5_download_error_fatal_witness :
    (download_models netDown []).2 = false ∧
    (∀ p ∈ [("noise25", f25), ("noise50", f50)],
      (base_url ++ p.2) ∉ (download_models netDown []).1.requests) ∧
    mainProc inpDown = MainOutcome.downloadFailed :=
  C5_download_error_fatal netDown [] [] [("noise25", f25), ("noise50", f50)]
    "noise15" f15 inpDown (by decide) (by simp) (by decide) (by decide) rfl rfl

/-- C3: an interrupted download leaves the partially-written file on disk
at the expected model path (no cleanup), and a later run's existence-only
check then treats it as already downloaded: no request is issued for that
file again, whatever was written and whatever the new network would
answer — no size or checksum is verified. -/
theorem C3_truncated_file_accepted (net1 net2 : String → NetResult)
    (files0 : List (String × Nat)) (l1 l2 : List (String × String))
    (nm fn : String) (w : List Nat)
    (hsplit : models = l1 ++ (nm, fn) :: l2)
    (hprev : ∀ p ∈ l1, fileExists files0 (model_path p.2) = true ∨
      (net1 (base_url ++ p.2)).isOk = true)
    (hnf : fileExists files0 (model_path fn) = false)
    (hint : net1 (base_url ++ fn) = NetResult.interrupted w) :
    (download_models net1 files0).2 = false ∧
    fileSize (download_models net1 files0).1.files (model_path fn)
      = some (chunkTotal w) ∧
    (base_url ++ fn) ∉
      (download_models net2 (download_models net1 files0).1.files).1.requests := by
  have hpw := models_path_pairwise
  rw [hsplit] at hpw
  have hpaths : ∀ p ∈ l1, model_path p.2 ≠ model_path fn := fun p hp =>
    (List.pairwise_append.mp hpw).2.2 p hp (nm, fn) (List.mem_cons_self _ _)
  have herr : (net1 (base_url ++ fn)).isErr = true := by rw [hint]; rfl
  have hrun := go_err_run net1 fn nm l2 l1 ⟨files0, []⟩ hprev hnf hpaths herr
  have hdm : download_models net1 files0
      = download_models_go net1 (l1 ++ (nm, fn) :: l2) ⟨files0, []⟩ := by
    rw [download_models, hsplit]
  have hmem : (nm, fn) ∈ models := by
    rw [hsplit]
    exact List.mem_append_right _ (List.mem_cons_self _ _)
  have hsz : fileSize (download_models net1 files0).1.files (model_path fn)
      = some (chunkTotal w) := by
    rw [hdm]
    exact hrun.2.2 w hint
  refine ⟨by rw [hdm]; exact hrun.1, hsz, ?_⟩
  rw [download_models]
  exact no_request_of_exists net2 fn models
    ⟨(download_models net1 files0).1.files, []⟩
    (fileExists_of_fileSize hsz) (List.not_mem_nil _) (url_dist_of_mem hmem)

theorem C3_truncated_file_accepted_witness :
    (download_models netFlaky []).2 = false ∧
    fileSize (download_models netFlaky []).1.files (model_path f15)
      = some (chunkTotal [8192]) ∧
    (base_url ++ f15) ∉
      (download_models netDown (download_models netFlaky []).1.files).1.requests :=
  C3_truncated_file_accepted netFlaky netDown [] []
    [("noise25", f25), ("noise50", f50)] "noise15" f15 [8192]
    (by decide) (by simp) (by decide) rfl

theorem C4_download_skip_witness :
    (base_url ++ f25) ∉ (download_models netDown allWeights).1.requests ∧
    download_models_go netDown [("noise25", f25)] ⟨allWeights, []⟩ =
      download_models_go netDown [] ⟨allWeights, []⟩ :=
  C4_download_skip netDown allWeights "noise25" f25 [] ⟨allWeights, []⟩
    (by decide) (by decide) (by decide)

/-! ### Helper lemmas for the directory map and the denoising loop -/

theorem str_append_data (a b : String) : (a ++ b).data = a.data ++ b.data := by
  cases a
  cases b
  rfl

theorem old_dir_ne_new_dir (n : Nat) : old_dir n ≠ new_dir n := by
  intro h
  have h2 := congrArg (fun s => s.data.length) h
  simp only [old_dir, new_dir, str_append_data, List.length_append] at h2
  have e1 : ("results/swinir_color_dn_noise" : String).data.length = 29 := by decide
  have e2 : ("results/project_denoised_noise" : String).data.length = 30 := by decide
  rw [e1, e2] at h2
  omega

theorem dirExists_setDir_self (ds : List (String × List String)) (p : String)
    (c : List String) : dirExists (setDir ds p c) p = true := by
  simp [dirExists, setDir]

theorem getDir_setDir_self (ds : List (String × List String)) (p : String)
    (c : List String) : getDir (setDir ds p c) p = some c := by
  simp [getDir, setDir, List.find?_cons_of_pos]

theorem dirExists_removeDir_self (ds : List (String × List String)) (p : String) :
    dirExists (removeDir ds p) p = false := by
  rw [Bool.eq_false_iff]
  intro h
  rcases List.any_eq_true.mp h with ⟨e, he, hq⟩
  rcases List.mem_filter.mp he with ⟨_, hne⟩
  rw [hq] at hne
  simp at hne

theorem dirExists_removeDir_false {ds : List (String × List String)} {r : String}
    (h : dirExists ds r = false) (q : String) :
    dirExists (removeDir ds q) r = false := by
  rw [Bool.eq_false_iff]
  intro hc
  rcases List.any_eq_true.mp hc with ⟨e, he, hr⟩
  rw [Bool.eq_false_iff] at h
  exact h (List.any_eq_true.mpr ⟨e, (List.mem_filter.mp he).1, hr⟩)

theorem getDir_removeDir_ne {q p : String} (hqp : q ≠ p) :
    ∀ ds : List (String × List String), getDir (removeDir ds p) q = getDir ds q
  | [] => rfl
  | e :: ds => by
    by_cases hep : e.1 = p
    · have h1 : removeDir (e :: ds) p = removeDir ds p := by
        simp [removeDir, hep]
      have h2 : getDir (e :: ds) q = getDir ds q := by
        have : (e.1 == q) = false := by
          rw [hep]
          simpa using Ne.symm hqp
        simp [getDir, List.find?, this]
      rw [h1, h2, getDir_removeDir_ne hqp ds]
    · have h1 : removeDir (e :: ds) p = e :: removeDir ds p := by
        simp [removeDir, hep]
      rw [h1]
      by_cases heq : e.1 = q
      · simp [getDir, List.find?, heq]
      · have : (e.1 == q) = false := by simpa using heq
        simp only [getDir, List.find?, this]
        exact getDir_removeDir_ne hqp ds

theorem dirExists_setDir_ne {q p : String} (hqp : q ≠ p)
    (ds : List (String × List String)) (c : List String) :
    dirExists (setDir ds p c) q = dirExists (removeDir ds p) q := by
  have : (p == q) = false := by simpa using Ne.symm hqp
  simp [dirExists, setDir, this]

theorem getDir_moveDir_dst (src dst : String)
    (ds : List (String × List String)) :
    getDir (moveDir ds src dst) dst = some ((getDir ds src).getD []) :=
  getDir_setDir_self _ _ _

theorem dirExists_moveDir_src {src dst : String} (hne : src ≠ dst)
    (ds : List (String × List String)) :
    dirExists (moveDir ds src dst) src = false := by
  unfold moveDir
  rw [dirExists_setDir_ne hne]
  exact dirExists_removeDir_false (dirExists_removeDir_self ds src) dst

theorem dictInsert_of_not_mem {d : List (Nat × String)} {k : Nat}
    (h : k ∉ d.map Prod.fst) (v : String) : dictInsert d k v = d ++ [(k, v)] := by
  unfold dictInsert
  rw [if_neg]
  intro hc
  rcases List.any_eq_true.mp hc with ⟨e, he, hek⟩
  exact h (List.mem_map.mpr ⟨e, he, beq_iff_eq.mp hek⟩)

theorem keys_dictInsert (d : List (Nat × String)) (k : Nat) (v : String) :
    ∀ k', k' ∈ (dictInsert d k v).map Prod.fst → k' ∈ d.map Prod.fst ∨ k' = k := by
  intro k' h
  unfold dictInsert at h
  split at h
  · rcases List.mem_map.mp h with ⟨x, hx, hfst⟩
    rcases List.mem_map.mp hx with ⟨e, he, hex⟩
    by_cases hek : (e.1 == k) = true
    · rw [if_pos hek] at hex
      subst hex
      exact Or.inr hfst.symm
    · rw [if_neg hek] at hex
      subst hex
      exact Or.inl (List.mem_map.mpr ⟨e, he, hfst⟩)
  · rcases List.mem_map.mp h with ⟨x, hx, hfst⟩
    rcases List.mem_append.mp hx with hx | hx
    · exact Or.inl (List.mem_map.mpr ⟨x, hx, hfst⟩)
    · rw [List.mem_singleton.mp hx] at hfst
      exact Or.inr hfst.symm

/-- On a failing command, `run_one` only logs: directories, summary and
advisory behavior aside, the observable loop state is untouched. -/
theorem run_one_failure_obs (proc : List String → SubprocBehavior) (ut : Bool)
    (s : RunState) (n : Nat) (e : String)
    (hf : proc (build_cmd n ut) = SubprocBehavior.failure e) :
    (run_one proc ut s n).dirs = s.dirs ∧
    (run_one proc ut s n).summary = s.summary ∧
    (run_one proc ut s n).loggedErrors = s.loggedErrors ++ [(n, e)] := by
  simp only [run_one, hf]
  split <;> exact ⟨rfl, rfl, rfl⟩

/-- On a zero-exit command that produced the output directory, `run_one`
moves it onto the project name and records the summary entry. -/
theorem run_one_success_some (proc : List String → SubprocBehavior) (ut : Bool)
    (s : RunState) (n : Nat) (c : List String)
    (hp : proc (build_cmd n ut) = SubprocBehavior.success (some c)) :
    (run_one proc ut s n).dirs
      = moveDir (rmtreeIfExists (setDir s.dirs (old_dir n) c) (new_dir n))
          (old_dir n) (new_dir n) ∧
    (run_one proc ut s n).summary = dictInsert s.summary n (new_dir n) := by
  simp only [run_one, hp, externalEffect]
  rw [if_pos (dirExists_setDir_self _ _ _)]
  exact ⟨rfl, rfl⟩

theorem loggedErrors_mono_run_one (proc : List String → SubprocBehavior) (ut : Bool)
    (s : RunState) (n : Nat) {x : Nat × String} (h : x ∈ s.loggedErrors) :
    x ∈ (run_one proc ut s n).loggedErrors := by
  unfold run_one
  split
  · split
    · exact h
    · exact h
  · split
    · exact List.mem_append_left _ h
    · exact List.mem_append_left _ h

theorem loggedErrors_mono_foldl (proc : List String → SubprocBehavior) (ut : Bool) :
    ∀ (levels : List Nat) (s : RunState) (x : Nat × String),
      x ∈ s.loggedErrors → x ∈ (levels.foldl (run_one proc ut) s).loggedErrors
  | [], _, _, h => h
  | n :: levels, s, x, h =>
    loggedErrors_mono_foldl proc ut levels (run_one proc ut s n) x
      (loggedErrors_mono_run_one proc ut s n h)

theorem summary_keys_run_one (proc : List String → SubprocBehavior) (ut : Bool)
    (s : RunState) (n : Nat) :
    ∀ k, k ∈ (run_one proc ut s n).summary.map Prod.fst →
      k ∈ s.summary.map Prod.fst ∨ k = n := by
  intro k hk
  unfold run_one at hk
  split at hk
  · split at hk
    · exact keys_dictInsert _ _ _ k hk
    · exact Or.inl hk
  · split at hk
    · exact Or.inl hk
    · exact Or.inl hk

theorem not_in_summary_of_failure (proc : List String → SubprocBehavior) (ut : Bool)
    (m : Nat) (e : String) (hf : proc (build_cmd m ut) = SubprocBehavior.failure e) :
    ∀ (levels : List Nat) (s : RunState),
      m ∉ s.summary.map Prod.fst →
      m ∉ (levels.foldl (run_one proc ut) s).summary.map Prod.fst
  | [], _, h => h
  | n :: levels, s, h => by
    rw [List.foldl_cons]
    refine not_in_summary_of_failure proc ut m e hf levels _ ?_
    by_cases hnm : n = m
    · subst hnm
      rw [(run_one_failure_obs proc ut s n e hf).2.1]
      exact h
    · intro hmem
      rcases summary_keys_run_one proc ut s n m hmem with h' | h'
      · exact h h'
      · exact hnm h'.symm

/-- Step congruence: `run_one` reads only `dirs` and `summary` of the observable state:
two states agreeing there keep agreeing there after any step. -/
theorem run_one_obs_congr (proc : List String → SubprocBehavior) (ut : Bool) (n : Nat)
    {s1 s2 : RunState} (hd : s1.dirs = s2.dirs) (hs : s1.summary = s2.summary) :
    (run_one proc ut s1 n).dirs = (run_one proc ut s2 n).dirs ∧
    (run_one proc ut s1 n).summary = (run_one proc ut s2 n).summary := by
  cases hp : proc (build_cmd n ut) with
  | success out =>
    simp only [run_one, hp, hd, hs]
    split <;> exact ⟨rfl, rfl⟩
  | failure e =>
    have h1 := run_one_failure_obs proc ut s1 n e hp
    have h2 := run_one_failure_obs proc ut s2 n e hp
    exact ⟨h1.1.trans (hd.trans h2.1.symm), h1.2.1.trans (hs.trans h2.2.1.symm)⟩

/-- A failing level behaves, for directories and summary, as if it had
not been requested at all. -/
theorem run_skip_failure (proc : List String → SubprocBehavior) (ut : Bool)
    (m : Nat) (e : String) (hf : proc (build_cmd m ut) = SubprocBehavior.failure e) :
    ∀ (levels : List Nat) (s1 s2 : RunState),
      s1.dirs = s2.dirs → s1.summary = s2.summary →
      (levels.foldl (run_one proc ut) s1).dirs
        = ((levels.filter (fun n => !(n == m))).foldl (run_one proc ut) s2).dirs ∧
      (levels.foldl (run_one proc ut) s1).summary
        = ((levels.filter (fun n => !(n == m))).foldl (run_one proc ut) s2).summary
  | [], _, _, hd, hs => ⟨hd, hs⟩
  | n :: levels, s1, s2, hd, hs => by
    rw [List.foldl_cons, List.filter_cons]
    by_cases hnm : n = m
    · subst hnm
      have hcond : (!(n == n)) = false := by simp
      rw [hcond]
      simp only [Bool.false_eq_true, if_false]
      have hobs := run_one_failure_obs proc ut s1 n e hf
      exact run_skip_failure proc ut n e hf levels (run_one proc ut s1 n) s2
        (hobs.1.trans hd) (hobs.2.1.trans hs)
    · have hcond : (!(n == m)) = true := by simp [hnm]
      rw [hcond]
      simp only [if_true]
      rw [List.foldl_cons]
      have hcong := run_one_obs_congr proc ut n hd hs
      exact run_skip_failure proc ut m e hf levels _ _ hcong.1 hcong.2

/-- Two external programs with pointwise-equal exit statuses (stderr texts
free) drive `run_one` to the same directories and summary. -/
theorem run_one_status_congr (proc1 proc2 : List String → SubprocBehavior)
    (ut : Bool) (n : Nat)
    (hst : sameStatus (proc1 (build_cmd n ut)) (proc2 (build_cmd n ut)))
    {s1 s2 : RunState} (hd : s1.dirs = s2.dirs) (hs : s1.summary = s2.summary) :
    (run_one proc1 ut s1 n).dirs = (run_one proc2 ut s2 n).dirs ∧
    (run_one proc1 ut s1 n).summary = (run_one proc2 ut s2 n).summary := by
  cases hp1 : proc1 (build_cmd n ut) with
  | success a =>
    cases hp2 : proc2 (build_cmd n ut) with
    | success b =>
      rw [hp1, hp2] at hst
      have hab : a = b := hst
      subst hab
      simp only [run_one, hp1, hp2, hd, hs]
      split <;> exact ⟨rfl, rfl⟩
    | failure e =>
      rw [hp1, hp2] at hst
      exact absurd hst (by simp [sameStatus])
  | failure e1 =>
    cases hp2 : proc2 (build_cmd n ut) with
    | success b =>
      rw [hp1, hp2] at hst
      exact absurd hst (by simp [sameStatus])
    | failure e2 =>
      have h1 := run_one_failure_obs proc1 ut s1 n e1 hp1
      have h2 := run_one_failure_obs proc2 ut s2 n e2 hp2
      exact ⟨h1.1.trans (hd.trans h2.1.symm), h1.2.1.trans (hs.trans h2.2.1.symm)⟩

theorem run_status_congr (proc1 proc2 : List String → SubprocBehavior) (ut : Bool)
    (hst : ∀ c, sameStatus (proc1 c) (proc2 c)) :
    ∀ (levels : List Nat) (s1 s2 : RunState),
      s1.dirs = s2.dirs → s1.summary = s2.summary →
      (levels.foldl (run_one proc1 ut) s1).dirs
        = (levels.foldl (run_one proc2 ut) s2).dirs ∧
      (levels.foldl (run_one proc1 ut) s1).summary
        = (levels.foldl (run_one proc2 ut) s2).summary
  | [], _, _, hd, hs => ⟨hd, hs⟩
  | n :: levels, s1, s2, hd, hs => by
    rw [List.foldl_cons, List.foldl_cons]
    have hcong := run_one_status_congr proc1 proc2 ut n (hst (build_cmd n ut)) hd hs
    exact run_status_congr proc1 proc2 ut hst levels _ _ hcong.1 hcong.2

theorem logged_in_run (proc : List String → SubprocBehavior) (ut : Bool)
    (m : Nat) (e : String) (hf : proc (build_cmd m ut) = SubprocBehavior.failure e) :
    ∀ (levels : List Nat) (s : RunState), m ∈ levels →
      (m, e) ∈ (levels.foldl (run_one proc ut) s).loggedErrors
  | n :: levels, s, hm => by
    rw [List.foldl_cons]
    rcases List.mem_cons.mp hm with h | h
    · subst h
      refine loggedErrors_mono_foldl proc ut levels _ _ ?_
      rw [(run_one_failure_obs proc ut s m e hf).2.2]
      exact List.mem_append_right _ (List.mem_singleton.mpr rfl)
    · exact logged_in_run proc ut m e hf levels _ h

/-- Key structure of `results_summary`: with distinct requested levels,
each zero-exit invocation that produces its output directory appends its
level; failures append nothing. -/
theorem summary_keys_of_nodup (proc : List String → SubprocBehavior) (ut : Bool) :
    ∀ (levels : List Nat) (s : RunState),
      levels.Nodup →
      (∀ n ∈ levels, (proc (build_cmd n ut)).succCreates = true) →
      (∀ n ∈ levels, n ∉ s.summary.map Prod.fst) →
      (levels.foldl (run_one proc ut) s).summary.map Prod.fst
        = s.summary.map Prod.fst
          ++ levels.filter (fun n => (proc (build_cmd n ut)).isSuccess)
  | [], s, _, _, _ => by simp
  | n :: levels, s, hnd, hcr, hdisj => by
    rw [List.foldl_cons, List.filter_cons]
    cases hp : proc (build_cmd n ut) with
    | failure e =>
      have hobs := run_one_failure_obs proc ut s n e hp
      have ih := summary_keys_of_nodup proc ut levels (run_one proc ut s n)
        (List.nodup_cons.mp hnd).2
        (fun x hx => hcr x (List.mem_cons_of_mem _ hx))
        (fun x hx => by
          rw [hobs.2.1]
          exact hdisj x (List.mem_cons_of_mem _ hx))
      rw [ih, hobs.2.1]
      simp [hp, SubprocBehavior.isSuccess]
    | success out =>
      have hcr0 := hcr n (List.mem_cons_self _ _)
      rw [hp] at hcr0
      rcases out with _ | c
      · simp [SubprocBehavior.succCreates] at hcr0
      · have hsum : (run_one proc ut s n).summary = s.summary ++ [(n, new_dir n)] := by
          rw [(run_one_success_some proc ut s n c hp).2]
          exact dictInsert_of_not_mem (hdisj n (List.mem_cons_self _ _)) _
        have ih := summary_keys_of_nodup proc ut levels (run_one proc ut s n)
          (List.nodup_cons.mp hnd).2
          (fun x hx => hcr x (List.mem_cons_of_mem _ hx))
          (fun x hx => by
            rw [hsum]
            simp only [List.map_append, List.mem_append]
            rintro (h | h)
            · exact hdisj x (List.mem_cons_of_mem _ hx) h
            · simp at h
              exact (List.nodup_cons.mp hnd).1 (h ▸ hx))
        rw [ih, hsum]
        simp [hp, SubprocBehavior.isSuccess]

/-- C1 (amended): for distinct requested noise levels, when every
zero-exit invocation also leaves its conventional output directory, the
result mapping holds exactly the succeeding levels as keys, in request
order — entries only for successful runs. -/
theorem C1_result_mapping (proc : List String → SubprocBehavior) (ut : Bool)
    (levels : List Nat) (dirs : List (String × List String))
    (hnd : levels.Nodup)
    (hcr : ∀ n ∈ levels, (proc (build_cmd n ut)).succCreates = true) :
    (run_denoising proc ut levels dirs).summary.map Prod.fst
      = successLevels proc ut levels := by
  have h := summary_keys_of_nodup proc ut levels ⟨dirs, [], [], []⟩ hnd hcr
    (by intro n _ h; simp at h)
  simpa [run_denoising, successLevels] using h

theorem C1_result_mapping_witness :
    (run_denoising procMixed false [15, 25] []).summary.map Prod.fst
      = successLevels procMixed false [15, 25] :=
  C1_result_mapping procMixed false [15, 25] [] (by decide) (by decide)

/-- C1, exactly as claimed, is false: with the single requested level 25
whose invocation exits 0 without creating the conventional output
directory (the warning branch, line 125), one invocation succeeds yet the
returned mapping has no entry. -/
theorem C1_counterexample :
    (successLevels procNoDir false [25]).length = 1 ∧
    (run_denoising procNoDir false [25] []).summary.length = 0 ∧
    (run_denoising procNoDir false [25] []).summary.length ≠
      (successLevels procNoDir false [25]).length := by
  refine ⟨rfl, rfl, by decide⟩

theorem sameStatus_symm {a b : SubprocBehavior} (h : sameStatus a b) :
    sameStatus b a := by
  cases a with
  | success x =>
    cases b with
    | success y => exact Eq.symm h
    | failure e => exact h.elim
  | failure e =>
    cases b with
    | success y => exact h.elim
    | failure f => trivial

/-- C6: a nonzero exit at one requested level is handled for that level
only — the captured stderr is logged, the level never enters the result
mapping, and directories and mapping come out exactly as if the level had
not been requested; the memory/CUDA substring heuristic prints an
advisory only: any oracle with the same exit statuses (arbitrary stderr
texts) produces the same mapping and directories. -/
theorem C6_subprocess_failure_isolated (proc proc2 : List String → SubprocBehavior)
    (ut : Bool) (levels : List Nat) (dirs : List (String × List String))
    (m : Nat) (e : String)
    (hm : m ∈ levels)
    (hf : proc (build_cmd m ut) = SubprocBehavior.failure e)
    (hst : ∀ c, sameStatus (proc c) (proc2 c)) :
    (m, e) ∈ (run_denoising proc ut levels dirs).loggedErrors ∧
    m ∉ (run_denoising proc ut levels dirs).summary.map Prod.fst ∧
    (run_denoising proc ut levels dirs).summary
      = (run_denoising proc ut (levels.filter (fun n => !(n == m))) dirs).summary ∧
    (run_denoising proc ut levels dirs).dirs
      = (run_denoising proc ut (levels.filter (fun n => !(n == m))) dirs).dirs ∧
    (run_denoising proc2 ut levels dirs).summary
      = (run_denoising proc ut levels dirs).summary ∧
    (run_denoising proc2 ut levels dirs).dirs
      = (run_denoising proc ut levels dirs).dirs := by
  have hskip := run_skip_failure proc ut m e hf levels ⟨dirs, [], [], []⟩
    ⟨dirs, [], [], []⟩ rfl rfl
  have hstat := run_status_congr proc2 proc ut (fun c => sameStatus_symm (hst c))
    levels ⟨dirs, [], [], []⟩ ⟨dirs, [], [], []⟩ rfl rfl
  refine ⟨?_, ?_, hskip.2, hskip.1, hstat.2, hstat.1⟩
  · exact logged_in_run proc ut m e hf levels _ hm
  · exact not_in_summary_of_failure proc ut m e hf levels _ (by intro h; simp at h)

theorem C6_subprocess_failure_isolated_witness :
    (25, "RuntimeError: CUDA out of memory")
      ∈ (run_denoising procMixed false [15, 25] []).loggedErrors ∧
    25 ∉ (run_denoising procMixed false [15, 25] []).summary.map Prod.fst ∧
    (run_denoising procMixed false [15, 25] []).summary
      = (run_denoising procMixed false
          ([15, 25].filter (fun n => !(n == 25))) []).summary ∧
    (run_denoising procMixed false [15, 25] []).dirs
      = (run_denoising procMixed false
          ([15, 25].filter (fun n => !(n == 25))) []).dirs ∧
    (run_denoising procMixed2 false [15, 25] []).summary
      = (run_denoising procMixed false [15, 25] []).summary ∧
    (run_denoising procMixed2 false [15, 25] []).dirs
      = (run_denoising procMixed false [15, 25] []).dirs :=
  C6_subprocess_failure_isolated procMixed procMixed2 false [15, 25] [] 25
    "RuntimeError: CUDA out of memory" (by decide) (by decide)
    (fun c => by
      by_cases h : (c == build_cmd 15 false) = true
      · simp [procMixed, procMixed2, h, sameStatus]
      · rw [Bool.not_eq_true] at h
        simp [procMixed, procMixed2, h, sameStatus])

/-- C7: a zero-exit run at level `n` whose external program wrote the
files `c` into its conventional directory leaves the project-named result
directory holding exactly `c` — any prior contents of that destination
are removed, never merged — and the conventional directory is gone. -/
theorem C7_rename_overwrite (proc : List String → SubprocBehavior) (ut : Bool)
    (s : RunState) (n : Nat) (c : List String)
    (hp : proc (build_cmd n ut) = SubprocBehavior.success (some c)) :
    getDir (run_one proc ut s n).dirs (new_dir n) = some c ∧
    dirExists (run_one proc ut s n).dirs (old_dir n) = false := by
  have hne := old_dir_ne_new_dir n
  have hdirs := (run_one_success_some proc ut s n c hp).1
  rw [hdirs]
  constructor
  · rw [getDir_moveDir_dst]
    have hold : getDir (rmtreeIfExists (setDir s.dirs (old_dir n) c) (new_dir n))
        (old_dir n) = some c := by
      unfold rmtreeIfExists
      split
      · rw [getDir_removeDir_ne hne]
        exact getDir_setDir_self _ _ _
      · exact getDir_setDir_self _ _ _
    rw [hold]
    rfl
  · exact dirExists_moveDir_src hne _

theorem C7_rename_overwrite_witness :
    getDir (run_one procFresh false
        ⟨[(new_dir 25, ["stale1.png", "stale2.png"])], [], [], []⟩ 25).dirs
      (new_dir 25) = some ["fresh.png"] ∧
    dirExists (run_one procFresh false
        ⟨[(new_dir 25, ["stale1.png", "stale2.png"])], [], [], []⟩ 25).dirs
      (old_dir 25) = false :=
  C7_rename_overwrite procFresh false
    ⟨[(new_dir 25, ["stale1.png", "stale2.png"])], [], [], []⟩ 25 ["fresh.png"] rfl

/-- C8: `main` returns early exactly on download failure or on the
absence of input images; in every other case it runs to completion — the
final success message is printed — with whatever result mapping the
denoising loop produced, including an empty one. -/
theorem C8_main_exit_behavior (inp : MainInput) :
    ((mainProc inp = MainOutcome.downloadFailed) ↔
      (download_models inp.net inp.files0).2 = false) ∧
    ((mainProc inp = MainOutcome.noImages) ↔
      ((download_models inp.net inp.files0).2 = true ∧
       prepare_test_images inp.testImages = false)) ∧
    ((download_models inp.net inp.files0).2 = true →
      prepare_test_images inp.testImages = true →
      mainProc inp = MainOutcome.completed
        (run_denoising inp.proc (strToLower inp.tileAnswer == "y")
          (chooseNoiseLevels inp.choice inp.custom) inp.resultDirs).summary
        (decide (1 < (run_denoising inp.proc (strToLower inp.tileAnswer == "y")
          (chooseNoiseLevels inp.choice inp.custom) inp.resultDirs).summary.length))
        (decide (1 < (run_denoising inp.proc (strToLower inp.tileAnswer == "y")
          (chooseNoiseLevels inp.choice inp.custom) inp.resultDirs).summary.length) &&
         (strToLower inp.ensembleAnswer == "y"))) := by
  cases hdl : (download_models inp.net inp.files0).2
  · simp [mainProc, hdl]
  · cases him : prepare_test_images inp.testImages
    · simp [mainProc, hdl, him]
    · simp [mainProc, hdl, him]

theorem C8_main_exit_behavior_witness :
    mainProc inpAllFail = MainOutcome.completed [] false false := by
  have h := (C8_main_exit_behavior inpAllFail).2.2 (by decide) (by decide)
  rw [h]
  decide

theorem ensemble_guard_core (S : List (Nat × String)) (E : Bool) :
    ((MainOutcome.completed S (decide (1 < S.length))
        (decide (1 < S.length) && E)).wroteEnsemble = true →
      2 ≤ (MainOutcome.completed S (decide (1 < S.length))
        (decide (1 < S.length) && E)).resultCount) ∧
    ((MainOutcome.completed S (decide (1 < S.length))
        (decide (1 < S.length) && E)).resultCount ≤ 1 →
      (MainOutcome.completed S (decide (1 < S.length))
        (decide (1 < S.length) && E)).wasPrompted = false ∧
      (MainOutcome.completed S (decide (1 < S.length))
        (decide (1 < S.length) && E)).wroteEnsemble = false) := by
  simp only [MainOutcome.wroteEnsemble, MainOutcome.resultCount, MainOutcome.wasPrompted]
  constructor
  · intro hw
    rw [Bool.and_eq_true, decide_eq_true_eq] at hw
    omega
  · intro hc
    have hd : decide (1 < S.length) = false := by
      rw [decide_eq_false_iff_not]
      omega
    simp [hd]

/-- C10: the ensemble-script step is reachable only behind the
`len(results) > 1` guard: whenever `create_ensemble.py` was written, at
least two noise levels had succeeded, and with at most one success the
user is never prompted and the script is never written. -/
theorem C10_ensemble_guard (inp : MainInput) :
    ((mainProc inp).wroteEnsemble = true → 2 ≤ (mainProc inp).resultCount) ∧
    ((mainProc inp).resultCount ≤ 1 →
      (mainProc inp).wasPrompted = false ∧ (mainProc inp).wroteEnsemble = false) := by
  unfold mainProc
  cases hdl : (download_models inp.net inp.files0).2
  · simp [MainOutcome.wroteEnsemble, MainOutcome.resultCount, MainOutcome.wasPrompted]
  · cases him : prepare_test_images inp.testImages
    · simp [MainOutcome.wroteEnsemble, MainOutcome.resultCount, MainOutcome.wasPrompted]
    · simp only [Bool.not_true, Bool.not_false, Bool.false_eq_true, if_false, if_true]
      exact ensemble_guard_core _ _

theorem C10_ensemble_guard_witness :
    (mainProc inpOne).resultCount ≤ 1 ∧
    (mainProc inpOne).wasPrompted = false ∧ (mainProc inpOne).wroteEnsemble = false := by
  refine ⟨by decide, ?_, ?_⟩
  · exact ((C10_ensemble_guard inpOne).2 (by decide)).1
  · exact ((C10_ensemble_guard inpOne).2 (by decide)).2
